import Mathlib

/-!
Verification of the jiminy declarative Solana-program framework.

This file gives a shallow embedding of the capability-validation runtime,
the generated dispatch routine, the PDA assertion, the account-close
lifecycle helper (all from src/src/jiminy.rs), and the build-time
instruction-metadata parser (src/build.rs), together with theorems
settling the specification claims about them.
-/

namespace Jiminy

/-- A public key, modelled abstractly as a natural number; only equality
of keys is ever consulted by the code under verification. -/
abbrev Pubkey := Nat

/-- The program's own identity, `crate::ID` (declared via
`pinocchio_pubkey::declare_id!` in lib.rs).  Abstract constant. -/
def crateID : Pubkey := 1

/-- `pinocchio_system::ID`, the default (system-program) owner. -/
def systemProgramID : Pubkey := 0

/-- `pinocchio_token::ID`, the token program. -/
def tokenProgramID : Pubkey := 2

/-- Errors of `pinocchio::program_error::ProgramError` used by the code,
plus `Custom` for program-defined error codes. -/
inductive ProgramError where
  | NotEnoughAccountKeys
  | MissingRequiredSignature
  | InvalidAccountData
  | InvalidAccountOwner
  | UninitializedAccount
  | AccountAlreadyInitialized
  | InvalidInstructionData
  | IncorrectProgramId
  | Custom (code : Nat)
deriving DecidableEq, Repr

/-- The observable state of a `pinocchio::account_info::AccountInfo`:
key, owner, lamport balance, signer/writable flags and raw data bytes. -/
structure AccountInfo where
  key : Pubkey
  owner : Pubkey
  lamports : Nat
  is_signer : Bool
  is_writable : Bool
  data : List Nat
deriving DecidableEq, Repr

/-- The account capabilities recognised by the `validate_account!` macro
arms in src/src/jiminy.rs (the `any, custom(..)` arm is not used by the
claims and is omitted). -/
inductive Cap where
  | signer
  | signerWritable
  | program
  | programWritable
  | uninitialized
  | uninitializedWritable
  | token
  | tokenWritable
  | notToken
  | notTokenWritable
  | anyWritable
  | any
deriving DecidableEq, Repr

/-- Shallow embedding of the `validate_account!` macro: each arm performs
its checks in the textual order of src/src/jiminy.rs lines 144-249,
returning the first failing check's error. -/
def validate_account (cap : Cap) (a : AccountInfo) : Except ProgramError Unit :=
  match cap with
  | .signer =>
      if !a.is_signer then Except.error .MissingRequiredSignature
      else Except.ok ()
  | .signerWritable =>
      if !a.is_signer then Except.error .MissingRequiredSignature
      else if !a.is_writable then Except.error .InvalidAccountData
      else Except.ok ()
  | .program =>
      if !(a.owner = crateID) then Except.error .InvalidAccountOwner
      else if a.lamports = 0 then Except.error .UninitializedAccount
      else Except.ok ()
  | .programWritable =>
      if !(a.owner = crateID) then Except.error .InvalidAccountOwner
      else if a.lamports = 0 then Except.error .UninitializedAccount
      else if !a.is_writable then Except.error .InvalidAccountData
      else Except.ok ()
  | .uninitialized =>
      if !(a.owner = systemProgramID) then Except.error .InvalidAccountOwner
      else if a.lamports ≠ 0 then Except.error .AccountAlreadyInitialized
      else Except.ok ()
  | .uninitializedWritable =>
      if !(a.owner = systemProgramID) then Except.error .InvalidAccountOwner
      else if a.lamports ≠ 0 then Except.error .AccountAlreadyInitialized
      else if !a.is_writable then Except.error .InvalidAccountData
      else Except.ok ()
  | .token =>
      if !(a.owner = tokenProgramID) then Except.error .InvalidAccountOwner
      else if a.lamports = 0 then Except.error .UninitializedAccount
      else Except.ok ()
  | .tokenWritable =>
      if !(a.owner = tokenProgramID) then Except.error .InvalidAccountOwner
      else if a.lamports = 0 then Except.error .UninitializedAccount
      else if !a.is_writable then Except.error .InvalidAccountData
      else Except.ok ()
  | .notToken =>
      if a.owner = tokenProgramID then Except.error .InvalidAccountOwner
      else Except.ok ()
  | .notTokenWritable =>
      if a.owner = tokenProgramID then Except.error .InvalidAccountOwner
      else if !a.is_writable then Except.error .InvalidAccountData
      else Except.ok ()
  | .anyWritable =>
      if !a.is_writable then Except.error .InvalidAccountData
      else Except.ok ()
  | .any => Except.ok ()

/-- Sequentially run `validate_account` over paired capabilities and
accounts, short-circuiting at the first failure (the expansion of the
`$( validate_account!(...); )*` block). -/
def validateAll : List (Cap × AccountInfo) → Except ProgramError Unit
  | [] => Except.ok ()
  | (c, a) :: rest =>
      match validate_account c a with
      | .error e => .error e
      | .ok _ => validateAll rest

/-- Shallow embedding of the generated
`impl TryFrom<&[AccountInfo]> for $name` (src/src/jiminy.rs lines 51-69):
the slice pattern `let [a, b, .., ] = accounts` binds the first N accounts
when at least N are supplied (else `NotEnoughAccountKeys`), then each
bound account is validated in declared order. -/
def tryFromAccounts (caps : List Cap) (accounts : List AccountInfo) :
    Except ProgramError (List AccountInfo) :=
  if accounts.length < caps.length then Except.error .NotEnoughAccountKeys
  else
    match validateAll (caps.zip accounts) with
    | .error e => .error e
    | .ok _ => .ok (accounts.take caps.length)

/-- Split a byte list into consecutive fields of the given sizes. -/
def splitFields : List Nat → List Nat → List (List Nat)
  | [], _ => []
  | sz :: rest, bytes => bytes.take sz :: splitFields rest (bytes.drop sz)

/-- Shallow embedding of `bytemuck::try_from_bytes::<Data>` on the
generated `#[derive(Pod)]` data struct: Pod derivation guarantees the
struct has no padding, so its size is the sum of the declared field
sizes and decoding succeeds exactly when the payload length equals that
sum, failing with `InvalidInstructionData` otherwise (src/src/jiminy.rs
lines 77-78). -/
def decodeData (fieldSizes : List Nat) (bytes : List Nat) :
    Except ProgramError (List (List Nat)) :=
  if bytes.length = fieldSizes.sum then .ok (splitFields fieldSizes bytes)
  else Except.error .InvalidInstructionData

/-- Shallow embedding of the generated
`impl TryFrom<(&[AccountInfo], &[u8])> for $name Instruction`
(src/src/jiminy.rs lines 72-85): accounts are bound and validated first,
then the payload is decoded. -/
def instrTryFrom (caps : List Cap) (fieldSizes : List Nat)
    (accounts : List AccountInfo) (bytes : List Nat) :
    Except ProgramError (List AccountInfo × List (List Nat)) :=
  match tryFromAccounts caps accounts with
  | .error e => .error e
  | .ok accs =>
      match decodeData fieldSizes bytes with
      | .error e => .error e
      | .ok flds => .ok (accs, flds)

/-- The generated `Instruction::try_from(..)?.process()` pipeline: bind
and validate, then run the handler body on the bound accounts and
decoded fields. -/
def runInstruction (caps : List Cap) (fieldSizes : List Nat)
    (process : List AccountInfo → List (List Nat) → Except ProgramError Unit)
    (accounts : List AccountInfo) (bytes : List Nat) :
    Except ProgramError Unit :=
  match instrTryFrom caps fieldSizes accounts bytes with
  | .error e => .error e
  | .ok (accs, flds) => process accs flds

/-- A declared instruction as seen by the generated dispatch routine:
discriminator, account capabilities, data-field sizes and handler body. -/
structure InstrDecl where
  discriminator : Nat
  caps : List Cap
  fieldSizes : List Nat
  process : List AccountInfo → List (List Nat) → Except ProgramError Unit

/-- The error produced by the generated `_ =>` dispatch arm
(src/build.rs lines 611-621): when an error domain was declared,
`Domain::InvalidDiscriminator.into()` (a `Custom` code); otherwise the
generic `ProgramError::InvalidInstructionData`. `domain` carries the
code of the declared domain's reserved `InvalidDiscriminator` variant. -/
def unknownDiscriminatorError : Option Nat → ProgramError
  | some code => .Custom code
  | none => .InvalidInstructionData

/-- Shallow embedding of the generated dispatch routine
`process_instruction` (src/build.rs lines 590-623, same shape as the
`jiminy_program!` macro, src/src/jiminy.rs lines 601-630): check the
program identity, then match on the first payload byte against the
declared discriminators, handing the accounts and the rest of the
payload to the matching instruction, and falling through to the
unknown-discriminator arm otherwise (also when the payload is empty). -/
def process_instruction (insts : List InstrDecl) (domain : Option Nat)
    (program_id : Pubkey) (accounts : List AccountInfo)
    (instruction_data : List Nat) : Except ProgramError Unit :=
  if program_id ≠ crateID then Except.error .IncorrectProgramId
  else
    match instruction_data.head? with
    | some d =>
        match insts.find? (fun i => i.discriminator == d) with
        | some i => runInstruction i.caps i.fieldSizes i.process accounts instruction_data.tail
        | none => Except.error (unknownDiscriminatorError domain)
    | none => Except.error (unknownDiscriminatorError domain)

/-! ### PDA derivation and assertion -/

/-- Modelled from the spec: `pinocchio_pubkey::derive_address` is an
external collaborator whose source is not part of this repository; spec
§4.7 specifies it as a pure, deterministic one-way function of
(seeds, bump, program identity), with no search.  Any fixed total
function realises that contract; we use a concrete fold encoding. -/
def derive_address (seeds : List (List Nat)) (bump : Nat)
    (program_id : Pubkey) : Pubkey :=
  (seeds.foldl (fun h s => s.foldl (fun h2 b => h2 * 257 + b + 1) (h * 31 + 7)) 5)
    * 65599 + bump * 256 + program_id

/-- Shallow embedding of the `assert_pda!` macro (src/src/jiminy.rs
lines 252-261): derive the expected address from the seeds, the bump and
the program's own identity, and fail with the caller-chosen error when
the account's key differs. -/
def assert_pda (account : AccountInfo) (seeds : List (List Nat))
    (bump : Nat) (err : ProgramError) : Except ProgramError Unit :=
  let expected := derive_address seeds bump crateID
  if account.key ≠ expected then Except.error err else Except.ok ()

/-! ### Account close lifecycle -/

/-- Modelled from the spec: Solana account-storage resize (collaborator
`AccountInfo::resize`, not under src/); shrinking truncates, growth is
zero-filled. -/
def resizeData (d : List Nat) (n : Nat) : List Nat :=
  d.take n ++ List.replicate (n - d.length) 0

/-- Modelled from the spec: `AccountInfo::close` (collaborator, not
under src/).  Per spec §4.9 closing relinquishes ownership (back to the
default owner) and removes the account's entire balance. -/
def closeInfo (a : AccountInfo) : AccountInfo :=
  { a with owner := systemProgramID, lamports := 0 }

/-- Shallow embedding of the `close_account!` macro (src/src/jiminy.rs
lines 356-372): add the account's whole balance to the receiver, write
the tombstone byte `0xff` at the start of the data when it is non-empty,
resize the storage to 1 byte, then close the account.  Borrow-state
failures of `try_borrow_*` concern aliasing at runtime and are outside
this state model, so the operation is total here ("every successful
close").  Returns (closed account, receiver). -/
def close_account (account receiver : AccountInfo) :
    AccountInfo × AccountInfo :=
  let receiver' := { receiver with lamports := receiver.lamports + account.lamports }
  let d := if account.data ≠ [] then account.data.set 0 255 else account.data
  let account' := closeInfo { account with data := resizeData d 1 }
  (account', receiver')

/-! ### Build-time parsing (src/build.rs)

The parser works line-by-line on raw text; we model Rust strings as
`List Char` and reproduce the exact library operations used
(`trim`, `split`, `contains`, `starts_with`, `ends_with`,
`trim_end_matches`, `trim_matches`, `parse::<u8>().unwrap_or(0)`,
`lines`). -/

/-- Rust string model. -/
abbrev Str := List Char

/-- The characters `str::trim` removes (ASCII whitespace suffices for
the inputs at hand). -/
def isWS (c : Char) : Bool :=
  c == ' ' || c == '\t' || c == '\n' || c == '\r'

/-- Rust `str::trim`. -/
def trimStr (s : Str) : Str :=
  ((s.dropWhile isWS).reverse.dropWhile isWS).reverse

/-- Rust `str::starts_with(pat)`. -/
def startsWith (pat s : Str) : Bool := pat.isPrefixOf s

/-- Rust `str::ends_with(c)` for a single character. -/
def endsWithChar (c : Char) (s : Str) : Bool :=
  match s.getLast? with
  | some d => d == c
  | none => false

/-- Rust `str::contains(pat)` for a substring pattern. -/
def containsStr (s pat : Str) : Bool :=
  match s with
  | [] => pat.isEmpty
  | _ :: rest => pat.isPrefixOf s || containsStr rest pat

/-- Rust `str::find(pat)`, returned as the suffix of the text starting
at the first occurrence (the code only ever uses `&content[start..]`). -/
def findSuffix (pat : Str) (s : Str) : Option Str :=
  match s with
  | [] => if pat.isEmpty then some [] else none
  | _ :: rest => if pat.isPrefixOf s then some s else findSuffix pat rest

/-- Rust `str::split(c)` (always yields at least one piece). -/
def splitOnChar (c : Char) : Str → List Str
  | [] => [[]]
  | d :: rest =>
      if d == c then [] :: splitOnChar c rest
      else
        match splitOnChar c rest with
        | [] => [[d]]
        | p :: ps => (d :: p) :: ps

/-- Rust `str::trim_end_matches(c)`: removes every trailing `c`. -/
def trimEndMatches (c : Char) (s : Str) : Str :=
  (s.reverse.dropWhile (fun d => d == c)).reverse

/-- Rust `str::trim_matches(c)`: removes every leading and trailing `c`. -/
def trimMatches (c : Char) (s : Str) : Str :=
  ((s.dropWhile (fun d => d == c)).reverse.dropWhile (fun d => d == c)).reverse

/-- Rust `s.parse::<u8>().unwrap_or(0)`: an optional `+` sign followed by
digits denoting a value below 256, anything else giving the fallback 0. -/
def parseU8 (s : Str) : Nat :=
  let t := match s with
    | '+' :: rest => rest
    | _ => s
  if t.isEmpty then 0
  else if t.all Char.isDigit then
    let v := t.foldl (fun n c => n * 10 + (c.toNat - 48)) 0
    if v ≤ 255 then v else 0
  else 0

/-- Strip one trailing carriage return, as Rust `str::lines` does. -/
def stripCR (s : Str) : Str :=
  match s.getLast? with
  | some '\r' => s.dropLast
  | _ => s

/-- Rust `str::lines`: split on newlines, dropping a final empty piece. -/
def strLines (s : Str) : List Str :=
  let ps := splitOnChar '\n' s
  let ps' := match ps.getLast? with
    | some l => if l.isEmpty then ps.dropLast else ps
    | none => ps
  ps'.map stripCR

/-- build.rs `AccountMeta`. -/
structure AccountMeta where
  name : Str
  index : Nat
  desc : Str
  attrs : List Str
deriving DecidableEq, Repr

/-- build.rs `FieldMeta`. -/
structure FieldMeta where
  name : Str
  field_type : Str
deriving DecidableEq, Repr

/-- build.rs `InstructionMeta`. -/
structure InstructionMeta where
  name : Str
  discriminator : Nat
  accounts : List AccountMeta
  fields : List FieldMeta
deriving DecidableEq, Repr

/-- build.rs `parse_new_account_line` (lines 189-219): split the line on
`:`; fewer than three pieces means no account; otherwise take the name,
capability text and description, and derive the shank attributes from
substring tests on the capability text. -/
def parse_new_account_line (line : Str) (index : Nat) : Option AccountMeta :=
  let parts := splitOnChar ':' line
  if parts.length < 3 then none
  else
    let name := trimStr (parts.getD 0 [])
    let account_def := trimStr (parts.getD 1 [])
    let desc := trimMatches '"' (trimEndMatches ',' (trimStr (parts.getD 2 [])))
    let attrs :=
      (if containsStr account_def (("signer").toList) then [("signer").toList] else [])
      ++ (if containsStr account_def (("writable").toList)
            || containsStr account_def (("=> writable").toList)
          then [("writable").toList] else [])
      ++ (if containsStr account_def (("uninitialized").toList)
          then [("writable").toList] else [])
    some { name := name, index := index, desc := desc, attrs := attrs }

/-- build.rs `parse_field_line` (lines 221-231). -/
def parse_field_line (line : Str) : Option FieldMeta :=
  let parts := splitOnChar ':' line
  if parts.length < 2 then none
  else
    some { name := trimStr (parts.getD 0 [])
           field_type := trimEndMatches ',' (trimStr (parts.getD 1 [])) }

/-- The mutable state of the `parse_macro_content` loop. -/
structure ParseState where
  name : Str
  discriminator : Nat
  accounts : List AccountMeta
  fields : List FieldMeta
  in_accounts : Bool
  in_data : Bool
  account_index : Nat
deriving DecidableEq, Repr

/-- Initial state of the `parse_macro_content` loop. -/
def initParseState : ParseState :=
  { name := [], discriminator := 0, accounts := [], fields := []
    in_accounts := false, in_data := false, account_index := 0 }

/-- Result of one iteration of the `parse_macro_content` line loop:
either continue with the updated state, or break (the `process:`
marker). -/
inductive StepRes where
  | cont (st : ParseState)
  | brk (st : ParseState)
deriving Repr

/-- The two trailing (non-`continue`) checks of the
`parse_macro_content` loop body (build.rs lines 161-174): the
Accounts-mode account parse followed by the Data-mode field parse, on
the already-trimmed line `l`. -/
def parseContentLine (l : Str) (st : ParseState) : ParseState :=
  let st1 :=
    if st.in_accounts && containsStr l (("desc:").toList) then
      match parse_new_account_line l st.account_index with
      | some a =>
          { st with accounts := st.accounts ++ [a]
                    account_index := st.account_index + 1 }
      | none => st
    else st
  let st2 :=
    if st1.in_data && l.contains ':'
        && !startsWith (("data:").toList) l
        && !startsWith (("\x7d").toList) l then
      match parse_field_line l with
      | some f => { st1 with fields := st1.fields ++ [f] }
      | none => st1
    else st1
  st2

/-- One iteration of the line loop of build.rs `parse_macro_content`
(lines 126-175), with the source's exact branch order: `discriminant:`
keyword, name capture, section markers (`process:` breaks), then — on
lines reaching that point — the Accounts-mode and Data-mode parses. -/
def parseMacroStep (line : Str) (st : ParseState) : StepRes :=
  let l := trimStr line
  if startsWith (("discriminant:").toList) l then
    .cont { st with discriminator :=
                      parseU8 (trimEndMatches ','
                        (trimStr ((splitOnChar ':' l).getD 1 []))) }
  else if st.name.isEmpty && !l.isEmpty
      && !startsWith (("define_instruction").toList) l
      && !startsWith (("discriminant:").toList) l
      && endsWithChar ',' l then
    .cont { st with name := trimEndMatches ',' l }
  else if startsWith (("accounts:").toList) l then
    .cont { st with in_accounts := true, in_data := false }
  else if startsWith (("data:").toList) l then
    .cont { st with in_accounts := false, in_data := true }
  else if startsWith (("process:").toList) l then .brk st
  else .cont (parseContentLine l st)

/-- The line loop of build.rs `parse_macro_content` (lines 126-175). -/
def parseMacroLines : List Str → ParseState → ParseState
  | [], st => st
  | line :: rest, st =>
      match parseMacroStep line st with
      | .cont st' => parseMacroLines rest st'
      | .brk st' => st'

/-- build.rs `parse_macro_content` (lines 114-187): run the line loop
and return a descriptor when a name was captured. -/
def parse_macro_content (content : Str) : Option InstructionMeta :=
  let st := parseMacroLines (strLines content) initParseState
  if st.name.isEmpty then none
  else some { name := st.name, discriminator := st.discriminator
              accounts := st.accounts, fields := st.fields }

/-- The bracket-balancing extraction loop of build.rs
`parse_instruction_file` (lines 94-109): starting at the marker, track
parenthesis depth, accumulate characters once inside, and stop as soon
as the depth returns to zero; if it never does, the loop simply runs off
the end of the input, keeping everything accumulated. -/
def extractLoop : Str → Int → Bool → Str → Str
  | [], _, _, acc => acc.reverse
  | ch :: rest, pc, im, acc =>
      let pc' := if ch == '(' then pc + 1 else if ch == ')' then pc - 1 else pc
      let im' := if ch == '(' then true else im
      let acc' := if im' then ch :: acc else acc
      if pc' == 0 && im' then acc'.reverse
      else extractLoop rest pc' im' acc'

/-- build.rs `parse_instruction_file` (lines 83-112), its pure part
(file reading aside): locate the first macro marker, extract the
parenthesis-balanced span after it, and hand the span to
`parse_macro_content`. -/
def parse_instruction_file (content : Str) : Option InstructionMeta :=
  let tail? :=
    match findSuffix (("define_instruction_with_metadata!(").toList) content with
    | some t => some t
    | none => findSuffix (("define_instruction!(").toList) content
  match tail? with
  | none => none
  | some t => parse_macro_content (extractLoop t 0 false [])

/-- A (trimmed) line that triggers one of the keyword branches of the
`parse_macro_content` loop. -/
def isKeywordLine (l : Str) : Bool :=
  startsWith (("discriminant:").toList) l
    || startsWith (("accounts:").toList) l
    || startsWith (("data:").toList) l
    || startsWith (("process:").toList) l

/-- A (trimmed) line carrying the description marker. -/
def isDescLine (l : Str) : Bool := containsStr l (("desc:").toList)

/-- A (trimmed) line carrying the description marker that also splits
into at least three colon-separated parts — exactly the lines from which
`parse_new_account_line` produces a slot. -/
def isGoodAccountLine (l : Str) : Bool :=
  isDescLine l && !((splitOnChar ':' l).length < 3)

/-- The account slots the Accounts-mode loop produces from a run of
non-keyword lines, starting at position index `i`: description-marker
lines are attempted, slot-producing ones consume an index, all other
lines are skipped. -/
def goodAccounts : List Str → Nat → List AccountMeta
  | [], _ => []
  | line :: rest, i =>
      let l := trimStr line
      if isDescLine l then
        match parse_new_account_line l i with
        | some a => a :: goodAccounts rest (i + 1)
        | none => goodAccounts rest i
      else goodAccounts rest i

/-! ### Theorems -/

/-- If the first `i` validations pass and the `i`-th fails with `e`, the
whole sequential validation fails with `e`. -/
lemma validateAll_error_of_first_fail (e : ProgramError) :
    ∀ (ps : List (Cap × AccountInfo)) (i : Nat) (hi : i < ps.length),
      (∀ j, (hj : j < i) →
        validate_account (ps.get ⟨j, by omega⟩).1 (ps.get ⟨j, by omega⟩).2
          = Except.ok ()) →
      validate_account (ps.get ⟨i, hi⟩).1 (ps.get ⟨i, hi⟩).2 = Except.error e →
      validateAll ps = Except.error e := by
  intro ps
  induction ps with
  | nil => intro i hi _ _; simp at hi
  | cons p rest ih =>
      intro i hi hprev hfail
      obtain ⟨c, a⟩ := p
      cases i with
      | zero =>
          simp only [List.get] at hfail
          simp [validateAll, hfail]
      | succ i =>
          have h0 := hprev 0 (Nat.succ_pos i)
          simp only [List.get] at h0
          simp only [validateAll, h0]
          exact ih i (by simpa using hi)
            (fun j hj => by simpa using hprev (j + 1) (by omega))
            (by simpa using hfail)

/-- Indexing a zip of lists. -/
lemma zipGet : ∀ (l1 : List Cap) (l2 : List AccountInfo) (j : Nat)
    (h1 : j < l1.length) (h2 : j < l2.length) (hz : j < (l1.zip l2).length),
    (l1.zip l2).get ⟨j, hz⟩ = (l1.get ⟨j, h1⟩, l2.get ⟨j, h2⟩) := by
  intro l1
  induction l1 with
  | nil => intro l2 j h1; simp at h1
  | cons c cs ih =>
      intro l2 j h1 h2 hz
      cases l2 with
      | nil => simp at h2
      | cons a as =>
          cases j with
          | zero => rfl
          | succ j =>
              exact ih as j (by simpa using h1) (by simpa using h2)
                (by simpa using hz)

/-- Zipping against a truncated right list of matching length changes
nothing. -/
lemma zip_take_self : ∀ (l1 : List Cap) (l2 : List AccountInfo),
    l1.zip (l2.take l1.length) = l1.zip l2 := by
  intro l1
  induction l1 with
  | nil => intro l2; simp
  | cons c cs ih =>
      intro l2
      cases l2 with
      | nil => simp
      | cons a as => simpa using ih as

/-- C4: per-slot capability rules run one per slot in declared order;
the first failing slot makes the whole generated handler return that
rule's specific error, with later slots unevaluated and before any
payload decoding (the result is this error for every payload and every
handler body). -/
theorem claim4_first_failing_slot_short_circuits
    (caps : List Cap) (accounts : List AccountInfo) (i : Nat)
    (e : ProgramError)
    (hlen : caps.length ≤ accounts.length) (hi : i < caps.length)
    (hprev : ∀ j, (hj : j < i) →
      validate_account (caps.get ⟨j, by omega⟩) (accounts.get ⟨j, by omega⟩)
        = Except.ok ())
    (hfail : validate_account (caps.get ⟨i, hi⟩) (accounts.get ⟨i, by omega⟩)
        = Except.error e) :
    ∀ (fieldSizes bytes : List Nat)
      (process : List AccountInfo → List (List Nat) → Except ProgramError Unit),
      runInstruction caps fieldSizes process accounts bytes = Except.error e := by
  intro fieldSizes bytes process
  have hzlen : (caps.zip accounts).length = caps.length := by
    rw [List.length_zip]; omega
  have hz : validateAll (caps.zip accounts) = Except.error e := by
    apply validateAll_error_of_first_fail e (caps.zip accounts) i (by omega)
    · intro j hj
      rw [zipGet caps accounts j (by omega) (by omega)]
      exact hprev j hj
    · rw [zipGet caps accounts i (by omega) (by omega)]
      exact hfail
  have hnl : ¬ accounts.length < caps.length := by omega
  simp [runInstruction, instrTryFrom, tryFromAccounts, hnl, hz]

/-- C4 witness: two slots, the second (uninitialized, balance 5) fails
`AccountAlreadyInitialized` even though the payload is also malformed —
slot errors precede payload decoding. -/
theorem claim4_first_failing_slot_short_circuits_instance :
    runInstruction [.signerWritable, .uninitializedWritable] [8]
      (fun _ _ => Except.ok ())
      [{ key := 1, owner := systemProgramID, lamports := 10,
         is_signer := true, is_writable := true, data := [] },
       { key := 2, owner := systemProgramID, lamports := 5,
         is_signer := false, is_writable := true, data := [] }]
      [1, 2] = Except.error .AccountAlreadyInitialized := by
  exact claim4_first_failing_slot_short_circuits
    [.signerWritable, .uninitializedWritable]
    [{ key := 1, owner := systemProgramID, lamports := 10,
       is_signer := true, is_writable := true, data := [] },
     { key := 2, owner := systemProgramID, lamports := 5,
       is_signer := false, is_writable := true, data := [] }]
    1 .AccountAlreadyInitialized (by decide) (by decide)
    (fun j hj => by
      have hj0 : j = 0 := by omega
      subst hj0; rfl)
    rfl [8] [1, 2] (fun _ _ => Except.ok ())

/-- C5: when account binding and validation succeed but the
post-discriminator payload length differs from the sum of the declared
field sizes, the generated handler fails with the payload-shape error
`InvalidInstructionData`, before any field value is read, and the
handler body never executes (the result is that error for every handler
body). -/
theorem claim5_payload_shape_mismatch
    (caps : List Cap) (fieldSizes : List Nat)
    (accounts accs : List AccountInfo) (bytes : List Nat)
    (hacc : tryFromAccounts caps accounts = Except.ok accs)
    (hlen : bytes.length ≠ fieldSizes.sum) :
    ∀ process, runInstruction caps fieldSizes process accounts bytes
      = Except.error .InvalidInstructionData := by
  intro process
  simp [runInstruction, instrTryFrom, decodeData, hacc, hlen]

/-- C5 witness: a 7-byte payload where one 8-byte field is declared is
rejected with the payload-shape error. -/
theorem claim5_payload_shape_mismatch_instance :
    runInstruction [.signer] [8] (fun _ _ => Except.ok ())
      [{ key := 1, owner := systemProgramID, lamports := 10,
         is_signer := true, is_writable := true, data := [] }]
      [1, 0, 0, 0, 0, 0, 0] = Except.error .InvalidInstructionData := by
  exact claim5_payload_shape_mismatch [.signer] [8]
    [{ key := 1, owner := systemProgramID, lamports := 10,
       is_signer := true, is_writable := true, data := [] }]
    [{ key := 1, owner := systemProgramID, lamports := 10,
       is_signer := true, is_writable := true, data := [] }]
    [1, 0, 0, 0, 0, 0, 0] rfl (by decide) (fun _ _ => Except.ok ())

/-- C10: invoking a generated handler with fewer accounts than declared
slots fails with `NotEnoughAccountKeys` no matter what the accounts
contain (so before any capability rule is consulted); with at least as
many accounts as slots, binding behaves exactly as on the first N
accounts — the surplus is ignored — and a successful binding returns the
first N accounts in order. -/
theorem claim10_account_arity (caps : List Cap)
    (accounts : List AccountInfo) :
    (accounts.length < caps.length →
      tryFromAccounts caps accounts = Except.error .NotEnoughAccountKeys)
    ∧ (caps.length ≤ accounts.length →
        tryFromAccounts caps accounts
          = tryFromAccounts caps (accounts.take caps.length)
        ∧ ∀ accs, tryFromAccounts caps accounts = Except.ok accs →
            accs = accounts.take caps.length) := by
  constructor
  · intro h
    simp [tryFromAccounts, h]
  · intro h
    have hnl : ¬ accounts.length < caps.length := by omega
    have htl : ¬ (accounts.take caps.length).length < caps.length := by
      simp [List.length_take]; omega
    constructor
    · simp only [tryFromAccounts, if_neg hnl, if_neg htl, zip_take_self,
        List.take_take, min_self]
    · intro accs haccs
      simp only [tryFromAccounts, if_neg hnl] at haccs
      rcases hv : validateAll (caps.zip accounts) with e | u
      · rw [hv] at haccs; cases haccs
      · rw [hv] at haccs
        simpa using haccs.symm

/-- C10 witness: one declared slot; zero accounts fail with
`NotEnoughAccountKeys`, two accounts bind to the first one only. -/
theorem claim10_account_arity_instance :
    tryFromAccounts [.any] [] = Except.error .NotEnoughAccountKeys
    ∧ tryFromAccounts [.any]
        [{ key := 1, owner := 0, lamports := 0, is_signer := false,
           is_writable := false, data := [] },
         { key := 2, owner := 0, lamports := 0, is_signer := false,
           is_writable := false, data := [] }]
        = tryFromAccounts [.any]
            [{ key := 1, owner := 0, lamports := 0, is_signer := false,
               is_writable := false, data := [] }] := by
  constructor
  · exact (claim10_account_arity [.any] []).1 (by decide)
  · exact ((claim10_account_arity [.any]
      [{ key := 1, owner := 0, lamports := 0, is_signer := false,
         is_writable := false, data := [] },
       { key := 2, owner := 0, lamports := 0, is_signer := false,
         is_writable := false, data := [] }]).2 (by decide)).1

/-- C1: the generated dispatch routine first checks the program
identity, failing `IncorrectProgramId` independently of accounts and
payload; otherwise the first payload byte is the discriminator — a
declared match strips it and runs that instruction's decode-and-execute
path on the accounts and remaining payload, while no match (including an
empty payload) yields the declared error domain's reserved
unknown-discriminator code when a domain was declared and the generic
`InvalidInstructionData` when none was. -/
theorem claim1_dispatch_contract (insts : List InstrDecl)
    (domain : Option Nat) (program_id : Pubkey)
    (accounts : List AccountInfo) (payload : List Nat)
    (_hne : insts ≠ []) :
    (program_id ≠ crateID →
      process_instruction insts domain program_id accounts payload
        = Except.error .IncorrectProgramId)
    ∧ (program_id = crateID →
        (∀ d i, payload.head? = some d →
          insts.find? (fun j => j.discriminator == d) = some i →
          process_instruction insts domain program_id accounts payload
            = runInstruction i.caps i.fieldSizes i.process accounts
                payload.tail)
        ∧ (∀ d, payload.head? = some d →
            insts.find? (fun j => j.discriminator == d) = none →
            process_instruction insts domain program_id accounts payload
              = Except.error (unknownDiscriminatorError domain))
        ∧ (payload = [] →
            process_instruction insts domain program_id accounts payload
              = Except.error (unknownDiscriminatorError domain)))
    ∧ (∀ c, unknownDiscriminatorError (some c) = .Custom c)
    ∧ unknownDiscriminatorError none = .InvalidInstructionData := by
  refine ⟨?_, ?_, fun _ => rfl, rfl⟩
  · intro h
    simp [process_instruction, h]
  · intro h
    refine ⟨?_, ?_, ?_⟩
    · intro d i hd hf
      simp [process_instruction, h, hd, hf]
    · intro d hd hf
      simp [process_instruction, h, hd, hf]
    · intro hp
      simp [process_instruction, h, hp]

/-- C1 witness: a one-instruction program; wrong program id fails
`IncorrectProgramId`, an unknown discriminator with a declared domain
fails with the domain's reserved code 6001. -/
theorem claim1_dispatch_contract_instance :
    process_instruction [⟨0, [], [], fun _ _ => Except.ok ()⟩] (some 6001)
      2 [] [0] = Except.error .IncorrectProgramId
    ∧ process_instruction [⟨0, [], [], fun _ _ => Except.ok ()⟩] (some 6001)
      crateID [] [9] = Except.error (.Custom 6001) := by
  constructor
  · exact (claim1_dispatch_contract
      [⟨0, [], [], fun _ _ => Except.ok ()⟩] (some 6001) 2 [] [0]
      (by simp)).1 (by decide)
  · exact ((claim1_dispatch_contract
      [⟨0, [], [], fun _ _ => Except.ok ()⟩] (some 6001) crateID [] [9]
      (by simp)).2.1 rfl).2.1 9 rfl rfl

/-- A line that does not carry the `process:` marker never breaks the
parse loop. -/
lemma parseMacroStep_no_break (line : Str) (st : ParseState)
    (h : startsWith (("process:").toList) (trimStr line) = false) :
    ∃ st', parseMacroStep line st = StepRes.cont st' := by
  unfold parseMacroStep
  dsimp only
  split_ifs <;> first | exact ⟨_, rfl⟩ | simp_all

/-- The parse loop is compositional over a run of non-breaking lines. -/
lemma parseMacroLines_append (ls : List Str) :
    ∀ (rest : List Str) (st : ParseState),
    (∀ l ∈ ls, startsWith (("process:").toList) (trimStr l) = false) →
    parseMacroLines (ls ++ rest) st
      = parseMacroLines rest (parseMacroLines ls st) := by
  induction ls with
  | nil => intro rest st _; rfl
  | cons line ls ih =>
      intro rest st h
      obtain ⟨st', hst'⟩ := parseMacroStep_no_break line st (h line (by simp))
      simp only [List.cons_append, parseMacroLines, hst']
      exact ih rest st' (fun l hl => h l (by simp [hl]))

/-- A nonempty captured name makes the name-capture branch dead. -/
lemma name_isEmpty_false (st : ParseState) (h : st.name ≠ []) :
    st.name.isEmpty = false := by
  cases hn : st.name with
  | nil => exact absurd hn h
  | cons a as => rfl

/-- A slot is produced from a line exactly when it splits into at least
three colon-separated parts. -/
lemma parse_new_account_line_isSome (l : Str) (i : Nat) :
    (parse_new_account_line l i).isSome
      = !((splitOnChar ':' l).length < 3) := by
  unfold parse_new_account_line
  dsimp only
  split_ifs <;> simp_all

/-- A produced slot carries the position index it was given. -/
lemma parse_new_account_line_index (l : Str) (i : Nat) (a : AccountMeta)
    (h : parse_new_account_line l i = some a) : a.index = i := by
  unfold parse_new_account_line at h
  dsimp only at h
  by_cases hc : (splitOnChar ':' l).length < 3
  · rw [if_pos hc] at h
    exact absurd h (by simp)
  · rw [if_neg hc] at h
    have ha := Option.some_inj.mp h
    rw [← ha]

/-- In Accounts mode, the trailing loop checks append one slot for a
slot-producing description line and do nothing otherwise. -/
lemma parseContentLine_accounts (l : Str) (st : ParseState)
    (hia : st.in_accounts = true) (hid : st.in_data = false) :
    parseContentLine l st
      = (if containsStr l (("desc:").toList) then
          match parse_new_account_line l st.account_index with
          | some a =>
              { st with accounts := st.accounts ++ [a]
                        account_index := st.account_index + 1 }
          | none => st
        else st) := by
  by_cases hd : containsStr l (("desc:").toList) = true
  · simp at hd
    cases hp : parse_new_account_line l st.account_index with
    | some a => simp [parseContentLine, hia, hid, hd, hp]
    | none => simp [parseContentLine, hia, hid, hd, hp]
  · simp at hd
    simp [parseContentLine, hia, hid, hd]

/-- In Accounts mode (with a name already captured), a non-keyword line
steps the state exactly as `goodAccounts` describes: a slot-producing
description line appends one slot and advances the index, everything
else leaves the state unchanged. -/
lemma parseMacroStep_accounts (line : Str) (st : ParseState)
    (hname : st.name ≠ []) (hia : st.in_accounts = true)
    (hid : st.in_data = false)
    (hkw : isKeywordLine (trimStr line) = false) :
    parseMacroStep line st =
      StepRes.cont
        (if isDescLine (trimStr line) then
          match parse_new_account_line (trimStr line) st.account_index with
          | some a =>
              { st with accounts := st.accounts ++ [a]
                        account_index := st.account_index + 1 }
          | none => st
        else st) := by
  have hne := name_isEmpty_false st hname
  simp only [isKeywordLine, Bool.or_eq_false_iff] at hkw
  obtain ⟨⟨⟨h1, h2⟩, h3⟩, h4⟩ := hkw
  have hcl := parseContentLine_accounts (trimStr line) st hia hid
  unfold parseMacroStep
  dsimp only
  rw [if_neg (by simpa using h1), if_neg (by simp [hne]),
    if_neg (by simpa using h2), if_neg (by simpa using h3),
    if_neg (by simpa using h4), hcl]
  rfl

/-- The section-marker branch for a `data:` line. -/
lemma parseMacroStep_eq_data (line : Str) (st : ParseState)
    (h1 : startsWith (("discriminant:").toList) (trimStr line) = false)
    (hne : st.name.isEmpty = false)
    (h3 : startsWith (("accounts:").toList) (trimStr line) = false)
    (h4 : startsWith (("data:").toList) (trimStr line) = true) :
    parseMacroStep line st
      = StepRes.cont { st with in_accounts := false, in_data := true } := by
  unfold parseMacroStep
  dsimp only
  rw [if_neg (by simpa using h1), if_neg (by simp [hne]),
    if_neg (by simpa using h3), if_pos h4]

/-- Outside Accounts mode, the trailing loop checks keep the account
list, the captured name and the mode flags for accounts unchanged. -/
lemma parseContentLine_stable (l : Str) (st : ParseState)
    (hia : st.in_accounts = false) :
    (parseContentLine l st).accounts = st.accounts
    ∧ (parseContentLine l st).name = st.name
    ∧ (parseContentLine l st).in_accounts = false := by
  have h1 : (if st.in_accounts && containsStr l (("desc:").toList) then
      match parse_new_account_line l st.account_index with
      | some a =>
          { st with accounts := st.accounts ++ [a]
                    account_index := st.account_index + 1 }
      | none => st
    else st) = st := by
    rw [if_neg (by simp [hia])]
  unfold parseContentLine
  dsimp only
  rw [h1]
  refine ⟨?_, ?_, ?_⟩ <;>
    · split
      · rcases hf : parse_field_line l with _ | f <;> simp [hf, hia]
      · simp [hia]

/-- Outside Accounts mode, a step on a line that does not open the
Accounts section preserves the captured name and the account list, and
stays outside Accounts mode. -/
lemma parseMacroStep_stable (line : Str) (st : ParseState)
    (hia : st.in_accounts = false) (hname : st.name ≠ [])
    (hacc : startsWith (("accounts:").toList) (trimStr line) = false) :
    (parseMacroStep line st = StepRes.brk st)
    ∨ ∃ st', parseMacroStep line st = StepRes.cont st'
        ∧ st'.accounts = st.accounts ∧ st'.name = st.name
        ∧ st'.in_accounts = false := by
  have hne := name_isEmpty_false st hname
  by_cases c1 : startsWith (("discriminant:").toList) (trimStr line) = true
  · have heq : parseMacroStep line st = StepRes.cont
        { st with discriminator := parseU8 (trimEndMatches ','
            (trimStr ((splitOnChar ':' (trimStr line)).getD 1 []))) } := by
      unfold parseMacroStep
      dsimp only
      rw [if_pos c1]
    exact Or.inr ⟨_, heq, rfl, rfl, hia⟩
  · by_cases c4 : startsWith (("data:").toList) (trimStr line) = true
    · exact Or.inr ⟨_, parseMacroStep_eq_data line st (by simpa using c1)
        hne hacc c4, rfl, rfl, rfl⟩
    · by_cases c5 : startsWith (("process:").toList) (trimStr line) = true
      · left
        unfold parseMacroStep
        dsimp only
        rw [if_neg c1, if_neg (by simp [hne]), if_neg (by simpa using hacc),
          if_neg c4, if_pos c5]
      · obtain ⟨ha, hn, hia2⟩ := parseContentLine_stable (trimStr line) st hia
        refine Or.inr ⟨_, ?_, ha, hn, hia2⟩
        unfold parseMacroStep
        dsimp only
        rw [if_neg c1, if_neg (by simp [hne]), if_neg (by simpa using hacc),
          if_neg c4, if_neg c5]

/-- Outside Accounts mode, a run of lines none of which opens the
Accounts section leaves the account list and the captured name
unchanged. -/
lemma parseMacroLines_stable (ls : List Str) :
    ∀ (st : ParseState), st.in_accounts = false → st.name ≠ [] →
    (∀ l ∈ ls, startsWith (("accounts:").toList) (trimStr l) = false) →
    (parseMacroLines ls st).accounts = st.accounts
      ∧ (parseMacroLines ls st).name = st.name := by
  induction ls with
  | nil => intro st _ _ _; exact ⟨rfl, rfl⟩
  | cons line ls ih =>
      intro st hia hname hacc
      rcases parseMacroStep_stable line st hia hname (hacc line (by simp))
        with hbrk | ⟨st', hst', ha, hn, hia2⟩
      · simp [parseMacroLines, hbrk]
      · simp only [parseMacroLines, hst']
        have hrec := ih st' hia2 (by rw [hn]; exact hname)
          (fun l hl => hacc l (by simp [hl]))
        exact ⟨hrec.1.trans ha, hrec.2.trans hn⟩

/-- In Accounts mode with a captured name, a run of non-keyword lines
appends exactly the slots of `goodAccounts` and advances the position
index by the number of slot-producing lines. -/
lemma parseMacroLines_accounts_run (ls : List Str) :
    ∀ (rest : List Str) (st : ParseState),
    st.name ≠ [] → st.in_accounts = true → st.in_data = false →
    (∀ l ∈ ls, isKeywordLine (trimStr l) = false) →
    parseMacroLines (ls ++ rest) st
      = parseMacroLines rest
          { st with accounts := st.accounts ++ goodAccounts ls st.account_index
                    account_index := st.account_index
                      + ls.countP (fun l => isGoodAccountLine (trimStr l)) } := by
  induction ls with
  | nil =>
      intro rest st hname hia hid _
      simp [goodAccounts]
  | cons line ls ih =>
      intro rest st hname hia hid hkw
      have hstep := parseMacroStep_accounts line st hname hia hid
        (hkw line (by simp))
      rw [List.cons_append]
      by_cases hd : isDescLine (trimStr line) = true
      · cases hp : parse_new_account_line (trimStr line) st.account_index with
        | some a =>
            have hg : isGoodAccountLine (trimStr line) = true := by
              have hs := parse_new_account_line_isSome (trimStr line)
                st.account_index
              rw [hp] at hs
              simp [isGoodAccountLine, hd, ← hs]
            have hstep2 : parseMacroStep line st = StepRes.cont
                { st with accounts := st.accounts ++ [a]
                          account_index := st.account_index + 1 } := by
              rw [hstep, if_pos hd, hp]
            have hunf : parseMacroLines (line :: (ls ++ rest)) st
                = parseMacroLines (ls ++ rest)
                    { st with accounts := st.accounts ++ [a]
                              account_index := st.account_index + 1 } := by
              rw [show parseMacroLines (line :: (ls ++ rest)) st
                    = (match parseMacroStep line st with
                       | .cont st2 => parseMacroLines (ls ++ rest) st2
                       | .brk st2 => st2) from rfl, hstep2]
            rw [hunf, ih rest
              { st with accounts := st.accounts ++ [a]
                        account_index := st.account_index + 1 }
              hname hia hid (fun l hl => hkw l (by simp [hl]))]
            dsimp only
            have e1 : (st.accounts ++ [a])
                  ++ goodAccounts ls (st.account_index + 1)
                = st.accounts ++ goodAccounts (line :: ls) st.account_index := by
              simp [goodAccounts, hd, hp]
            have e2 : st.account_index + 1
                  + ls.countP (fun l => isGoodAccountLine (trimStr l))
                = st.account_index
                  + (line :: ls).countP (fun l => isGoodAccountLine (trimStr l)) := by
              rw [List.countP_cons]
              simp [hg]
              omega
            rw [e1, e2]
        | none =>
            have hstep2 : parseMacroStep line st = StepRes.cont st := by
              rw [hstep, if_pos hd, hp]
            have hunf : parseMacroLines (line :: (ls ++ rest)) st
                = parseMacroLines (ls ++ rest) st := by
              rw [show parseMacroLines (line :: (ls ++ rest)) st
                    = (match parseMacroStep line st with
                       | .cont st2 => parseMacroLines (ls ++ rest) st2
                       | .brk st2 => st2) from rfl, hstep2]
            have hg : isGoodAccountLine (trimStr line) = false := by
              have hs := parse_new_account_line_isSome (trimStr line)
                st.account_index
              rw [hp] at hs
              simp [isGoodAccountLine, hd, ← hs]
            rw [hunf, ih rest st hname hia hid
              (fun l hl => hkw l (by simp [hl]))]
            have e1 : goodAccounts ls st.account_index
                = goodAccounts (line :: ls) st.account_index := by
              simp [goodAccounts, hd, hp]
            have e2 : ls.countP (fun l => isGoodAccountLine (trimStr l))
                = (line :: ls).countP (fun l => isGoodAccountLine (trimStr l)) := by
              rw [List.countP_cons]
              simp [hg]
            rw [← e1, ← e2]
      · have hstep2 : parseMacroStep line st = StepRes.cont st := by
          rw [hstep, if_neg hd]
        have hunf : parseMacroLines (line :: (ls ++ rest)) st
            = parseMacroLines (ls ++ rest) st := by
          rw [show parseMacroLines (line :: (ls ++ rest)) st
                = (match parseMacroStep line st with
                   | .cont st2 => parseMacroLines (ls ++ rest) st2
                   | .brk st2 => st2) from rfl, hstep2]
        have hg : isGoodAccountLine (trimStr line) = false := by
          simp [isGoodAccountLine]
          intro hcontra
          exact absurd hcontra (by simpa using hd)
        rw [hunf, ih rest st hname hia hid
          (fun l hl => hkw l (by simp [hl]))]
        have e1 : goodAccounts ls st.account_index
            = goodAccounts (line :: ls) st.account_index := by
          simp only [goodAccounts]
          rw [if_neg hd]
        have e2 : ls.countP (fun l => isGoodAccountLine (trimStr l))
            = (line :: ls).countP (fun l => isGoodAccountLine (trimStr l)) := by
          rw [List.countP_cons]
          simp [hg]
        rw [← e1, ← e2]

/-- `isGoodAccountLine` is description marker plus decode success. -/
lemma isGoodAccountLine_eq_isSome (l : Str) (i : Nat) :
    isGoodAccountLine l
      = (isDescLine l && (parse_new_account_line l i).isSome) := by
  rw [parse_new_account_line_isSome]
  rfl

/-- The number of produced slots equals the number of slot-producing
lines, independently of the starting index. -/
lemma goodAccounts_length (ls : List Str) :
    ∀ i, (goodAccounts ls i).length
      = ls.countP (fun l => isGoodAccountLine (trimStr l)) := by
  induction ls with
  | nil => intro i; rfl
  | cons line ls ih =>
      intro i
      rw [List.countP_cons]
      by_cases hd : isDescLine (trimStr line) = true
      · cases hp : parse_new_account_line (trimStr line) i with
        | some a =>
            have hg : isGoodAccountLine (trimStr line) = true := by
              rw [isGoodAccountLine_eq_isSome (trimStr line) i, hd, hp]
              rfl
            simp [goodAccounts, hd, hp, ih, hg]
        | none =>
            have hg : isGoodAccountLine (trimStr line) = false := by
              rw [isGoodAccountLine_eq_isSome (trimStr line) i, hd, hp]
              rfl
            simp [goodAccounts, hd, hp, ih, hg]
      · have hg : isGoodAccountLine (trimStr line) = false := by
          rw [isGoodAccountLine_eq_isSome (trimStr line) i]
          simp at hd
          rw [hd]
          rfl
        have he : goodAccounts (line :: ls) i = goodAccounts ls i := by
          simp only [goodAccounts]
          rw [if_neg hd]
        rw [he, ih, hg]
        simp

/-- Produced slots carry consecutive position indices starting at the
initial index. -/
lemma goodAccounts_index (ls : List Str) :
    ∀ i k (hk : k < (goodAccounts ls i).length),
      ((goodAccounts ls i).get ⟨k, hk⟩).index = i + k := by
  induction ls with
  | nil => intro i k hk; simp [goodAccounts] at hk
  | cons line ls ih =>
      intro i k
      by_cases hd : isDescLine (trimStr line) = true
      · cases hp : parse_new_account_line (trimStr line) i with
        | some a =>
            have he : goodAccounts (line :: ls) i
                = a :: goodAccounts ls (i + 1) := by
              simp [goodAccounts, hd, hp]
            rw [he]
            intro hk
            cases k with
            | zero =>
                simp only [List.get]
                exact parse_new_account_line_index (trimStr line) i a hp
            | succ k =>
                simp only [List.get]
                rw [ih (i + 1) k (by simpa using hk)]
                omega
        | none =>
            have he : goodAccounts (line :: ls) i = goodAccounts ls i := by
              simp [goodAccounts, hd, hp]
            rw [he]
            intro hk
            exact ih i k hk
      · have he : goodAccounts (line :: ls) i = goodAccounts ls i := by
          simp only [goodAccounts]
          rw [if_neg hd]
        rw [he]
        intro hk
        exact ih i k hk

/-- A line starting with `data:` cannot start with `discriminant:`. -/
lemma data_prefix_not_disc (l : Str)
    (h : startsWith (("data:").toList) l = true) :
    startsWith (("discriminant:").toList) l = false := by
  obtain ⟨t, rfl⟩ := List.isPrefixOf_iff_prefix.mp h
  rfl

/-- A line starting with `data:` cannot start with `accounts:`. -/
lemma data_prefix_not_accounts (l : Str)
    (h : startsWith (("data:").toList) l = true) :
    startsWith (("accounts:").toList) l = false := by
  obtain ⟨t, rfl⟩ := List.isPrefixOf_iff_prefix.mp h
  rfl

/-- C6 (amended): for an instruction block whose preamble has captured a
name and entered the Accounts section, with the section closed by a
`data:` line and no later line reopening it, the parsed descriptor
contains exactly one slot per Accounts-section line that carries the
description marker and splits into at least three colon-separated parts,
in file order with position indices 0..N-1; marker-less lines, and
marker lines with fewer than three parts, are skipped without consuming
an index. -/
theorem claim6_account_slots_enumerated
    (content : Str) (pre accLines : List Str) (dataLine : Str)
    (post : List Str)
    (hsplit : strLines content = pre ++ accLines ++ dataLine :: post)
    (hpre : ∀ l ∈ pre, startsWith (("process:").toList) (trimStr l) = false)
    (hname : (parseMacroLines pre initParseState).name ≠ [])
    (hia : (parseMacroLines pre initParseState).in_accounts = true)
    (hid : (parseMacroLines pre initParseState).in_data = false)
    (hacc0 : (parseMacroLines pre initParseState).accounts = [])
    (hidx0 : (parseMacroLines pre initParseState).account_index = 0)
    (hkw : ∀ l ∈ accLines, isKeywordLine (trimStr l) = false)
    (hdata : startsWith (("data:").toList) (trimStr dataLine) = true)
    (hpost : ∀ l ∈ post,
      startsWith (("accounts:").toList) (trimStr l) = false) :
    ∃ meta, parse_macro_content content = some meta
      ∧ meta.accounts = goodAccounts accLines 0
      ∧ meta.accounts.length
          = accLines.countP (fun l => isGoodAccountLine (trimStr l))
      ∧ ∀ k, (hk : k < meta.accounts.length) →
          (meta.accounts.get ⟨k, hk⟩).index = k := by
  have hrun1 : parseMacroLines (strLines content) initParseState
      = parseMacroLines (accLines ++ dataLine :: post)
          (parseMacroLines pre initParseState) := by
    rw [hsplit, List.append_assoc,
      parseMacroLines_append pre (accLines ++ dataLine :: post)
        initParseState hpre]
  have hrun2 : parseMacroLines (accLines ++ dataLine :: post)
        (parseMacroLines pre initParseState)
      = parseMacroLines (dataLine :: post)
          { parseMacroLines pre initParseState with
              accounts := goodAccounts accLines 0
              account_index :=
                accLines.countP (fun l => isGoodAccountLine (trimStr l)) } := by
    rw [parseMacroLines_accounts_run accLines (dataLine :: post)
      (parseMacroLines pre initParseState) hname hia hid hkw, hacc0, hidx0,
      List.nil_append, Nat.zero_add]
  have hstep := parseMacroStep_eq_data dataLine
    { parseMacroLines pre initParseState with
        accounts := goodAccounts accLines 0
        account_index :=
          accLines.countP (fun l => isGoodAccountLine (trimStr l)) }
    (data_prefix_not_disc _ hdata) (name_isEmpty_false _ hname)
    (data_prefix_not_accounts _ hdata) hdata
  have hrun3 : parseMacroLines (dataLine :: post)
        { parseMacroLines pre initParseState with
            accounts := goodAccounts accLines 0
            account_index :=
              accLines.countP (fun l => isGoodAccountLine (trimStr l)) }
      = parseMacroLines post
          { parseMacroLines pre initParseState with
              accounts := goodAccounts accLines 0
              account_index :=
                accLines.countP (fun l => isGoodAccountLine (trimStr l))
              in_accounts := false
              in_data := true } := by
    rw [show parseMacroLines (dataLine :: post)
          { parseMacroLines pre initParseState with
              accounts := goodAccounts accLines 0
              account_index :=
                accLines.countP (fun l => isGoodAccountLine (trimStr l)) }
        = (match parseMacroStep dataLine
              { parseMacroLines pre initParseState with
                  accounts := goodAccounts accLines 0
                  account_index :=
                    accLines.countP (fun l => isGoodAccountLine (trimStr l)) }
            with
           | .cont s2 => parseMacroLines post s2
           | .brk s2 => s2) from rfl, hstep]
  have hstable := parseMacroLines_stable post
    { parseMacroLines pre initParseState with
        accounts := goodAccounts accLines 0
        account_index :=
          accLines.countP (fun l => isGoodAccountLine (trimStr l))
        in_accounts := false
        in_data := true }
    rfl hname hpost
  have hMA : (parseMacroLines post
      { parseMacroLines pre initParseState with
          accounts := goodAccounts accLines 0
          account_index :=
            accLines.countP (fun l => isGoodAccountLine (trimStr l))
          in_accounts := false
          in_data := true }).accounts = goodAccounts accLines 0 := hstable.1
  have hnemp : (parseMacroLines post
      { parseMacroLines pre initParseState with
          accounts := goodAccounts accLines 0
          account_index :=
            accLines.countP (fun l => isGoodAccountLine (trimStr l))
          in_accounts := false
          in_data := true }).name.isEmpty = false := by
    rw [hstable.2]
    exact name_isEmpty_false _ hname
  unfold parse_macro_content
  dsimp only
  rw [hrun1, hrun2, hrun3, if_neg (by rw [hnemp]; exact Bool.false_ne_true)]
  refine ⟨_, rfl, hMA, ?_, ?_⟩
  · dsimp only
    rw [hMA]
    exact goodAccounts_length accLines 0
  · dsimp only
    intro k hk
    rw [List.get_of_eq hMA]
    have hk2 : k < (goodAccounts accLines 0).length := by
      rw [← hMA]; exact hk
    rw [goodAccounts_index accLines 0 k hk2]
    omega

/-- C6 witness: a concrete block with two slot-producing lines, one
marker-less line and one marker line with too few parts; the descriptor
has exactly the two slots, indexed 0 and 1. -/
theorem claim6_account_slots_enumerated_instance :
    ∃ meta, parse_macro_content
        (("discriminant: 1,\nFoo,\naccounts: \x7b\nowner: signer, desc: \"o\",\nrandom_line\ndesc: \"x\",\ncounter: uninitialized, desc: \"c\",\n\x7d,\ndata: \x7b\n\x7d,").toList)
        = some meta
      ∧ meta.accounts = goodAccounts
          [("owner: signer, desc: \"o\",").toList,
           ("random_line").toList,
           ("desc: \"x\",").toList,
           ("counter: uninitialized, desc: \"c\",").toList,
           ("\x7d,").toList] 0
      ∧ meta.accounts.length
          = List.countP (fun l => isGoodAccountLine (trimStr l))
              [("owner: signer, desc: \"o\",").toList,
               ("random_line").toList,
               ("desc: \"x\",").toList,
               ("counter: uninitialized, desc: \"c\",").toList,
               ("\x7d,").toList]
      ∧ ∀ k, (hk : k < meta.accounts.length) →
          (meta.accounts.get ⟨k, hk⟩).index = k :=
  claim6_account_slots_enumerated
    (("discriminant: 1,\nFoo,\naccounts: \x7b\nowner: signer, desc: \"o\",\nrandom_line\ndesc: \"x\",\ncounter: uninitialized, desc: \"c\",\n\x7d,\ndata: \x7b\n\x7d,").toList)
    [("discriminant: 1,").toList, ("Foo,").toList, ("accounts: \x7b").toList]
    [("owner: signer, desc: \"o\",").toList,
     ("random_line").toList,
     ("desc: \"x\",").toList,
     ("counter: uninitialized, desc: \"c\",").toList,
     ("\x7d,").toList]
    (("data: \x7b").toList)
    [("\x7d,").toList]
    (by decide) (by decide) (by decide) (by decide) (by decide)
    (by decide) (by decide) (by decide) (by decide) (by decide)

/-- C6 counterexample: a block whose Accounts section carries exactly one
description-marker line, yet the parsed descriptor has zero slots — the
marker line splits into fewer than three colon-separated parts and is
silently dropped, contradicting the claim that N marker lines always
give N slots. -/
theorem claim6_desc_line_without_three_parts_dropped :
    parse_macro_content
        (("discriminant: 0,\nFoo,\naccounts: \x7b\ndesc: \"x\",\n\x7d,\ndata: \x7b\n\x7d,").toList)
      = some { name := ("Foo").toList, discriminator := 0,
               accounts := [], fields := [] }
    ∧ List.countP (fun l => isDescLine (trimStr l))
        (strLines (("discriminant: 0,\nFoo,\naccounts: \x7b\ndesc: \"x\",\n\x7d,\ndata: \x7b\n\x7d,").toList))
      = 1 := by
  constructor
  · decide
  · decide

/-- C7 (amended): the instruction-file extraction returns nothing when
neither macro marker occurs in the text; no diagnostic is raised.  (When
the marker is present but brackets never rebalance, the span runs to the
end of the input and is still parsed — see the counterexample.) -/
theorem claim7_absent_marker_yields_none (content : Str)
    (h1 : findSuffix (("define_instruction_with_metadata!(").toList)
        content = none)
    (h2 : findSuffix (("define_instruction!(").toList) content = none) :
    parse_instruction_file content = none := by
  unfold parse_instruction_file
  dsimp only
  rw [h1, h2]

/-- C7 witness: ordinary source text without the macro markers parses to
nothing. -/
theorem claim7_absent_marker_yields_none_instance :
    parse_instruction_file (("fn main() \x7b let x = (1, 2); \x7d\n").toList)
      = none :=
  claim7_absent_marker_yields_none _ (by decide) (by decide)

/-- C7 counterexample: input holding the marker whose brackets never
rebalance — one `(` and no `)` — on which the extraction still produces
a descriptor (named `Foo`, discriminant 3) instead of returning nothing:
the loop runs off the end of the input and the accumulated span is
parsed anyway. -/
theorem claim7_unbalanced_brackets_still_parsed :
    ((("define_instruction_with_metadata!(\n    discriminant: 3,\n    Foo,").toList).count '(') = 1
    ∧ ((("define_instruction_with_metadata!(\n    discriminant: 3,\n    Foo,").toList).count ')') = 0
    ∧ parse_instruction_file
        (("define_instruction_with_metadata!(\n    discriminant: 3,\n    Foo,").toList)
      = some { name := ("Foo").toList, discriminator := 3,
               accounts := [], fields := [] } := by
  refine ⟨by decide, by decide, by decide⟩

/-- C2 counterexample: the claim requires writability for every account
validated under the `uninitialized` rule, but the bare `uninitialized`
arm of `validate_account!` never checks `is_writable`: a non-writable
account with the default owner and zero balance passes validation. -/
theorem claim2_uninitialized_writable_not_required :
    validate_account .uninitialized
      { key := 5, owner := systemProgramID, lamports := 0,
        is_signer := false, is_writable := false, data := [] } = .ok ()
    ∧ ({ key := 5, owner := systemProgramID, lamports := 0,
         is_signer := false, is_writable := false, data := [] } :
        AccountInfo).is_writable = false := by
  constructor <;> rfl

/-- C2 (amended): under `uninitialized => writable` validation passes iff
the owner is the default owner, the balance is zero and the account is
writable; under bare `uninitialized` it passes iff the owner is the
default owner and the balance is zero, with writability not checked.
Failures yield `InvalidAccountOwner`, `AccountAlreadyInitialized` and (for
the explicit-writable form only) `InvalidAccountData`, in that check
order. -/
theorem claim2_uninitialized_validation_rules (a : AccountInfo) :
    (validate_account .uninitialized a = .ok ()
      ↔ a.owner = systemProgramID ∧ a.lamports = 0)
    ∧ (validate_account .uninitializedWritable a = .ok ()
      ↔ a.owner = systemProgramID ∧ a.lamports = 0 ∧ a.is_writable = true)
    ∧ (a.owner ≠ systemProgramID →
        validate_account .uninitialized a = .error .InvalidAccountOwner
        ∧ validate_account .uninitializedWritable a = .error .InvalidAccountOwner)
    ∧ (a.owner = systemProgramID → a.lamports ≠ 0 →
        validate_account .uninitialized a = .error .AccountAlreadyInitialized
        ∧ validate_account .uninitializedWritable a
            = .error .AccountAlreadyInitialized)
    ∧ (a.owner = systemProgramID → a.lamports = 0 → a.is_writable = false →
        validate_account .uninitializedWritable a = .error .InvalidAccountData) := by
  obtain ⟨k, o, l, sg, w, d⟩ := a
  by_cases ho : o = systemProgramID <;> by_cases hl : l = 0 <;> cases w <;>
    simp_all [validate_account]

/-- C2 witness: the amended rules at concrete accounts. -/
theorem claim2_uninitialized_validation_rules_instance :
    validate_account .uninitializedWritable
      { key := 9, owner := systemProgramID, lamports := 0,
        is_signer := false, is_writable := false, data := [] }
      = .error .InvalidAccountData := by
  exact (claim2_uninitialized_validation_rules _).2.2.2.2 rfl rfl rfl

/-- C3 counterexample: an account with nonzero balance and an owner
other than the default owner fails with `InvalidAccountOwner`, not
`AccountAlreadyInitialized` — the owner check runs first. -/
theorem claim3_owner_checked_before_balance :
    validate_account .uninitialized
      { key := 3, owner := tokenProgramID, lamports := 5,
        is_signer := false, is_writable := true, data := [] }
      = .error .InvalidAccountOwner
    ∧ ({ key := 3, owner := tokenProgramID, lamports := 5,
         is_signer := false, is_writable := true, data := [] } :
        AccountInfo).lamports ≠ 0 := by
  exact ⟨rfl, by decide⟩

/-- C3 (amended): under either `uninitialized` form, an account with
nonzero balance always fails validation, with `AccountAlreadyInitialized`
when its owner is the default owner and with `InvalidAccountOwner`
otherwise. -/
theorem claim3_nonzero_balance_always_fails (a : AccountInfo)
    (h : a.lamports ≠ 0) :
    validate_account .uninitialized a ≠ .ok ()
    ∧ validate_account .uninitializedWritable a ≠ .ok ()
    ∧ (a.owner = systemProgramID →
        validate_account .uninitialized a = .error .AccountAlreadyInitialized
        ∧ validate_account .uninitializedWritable a
            = .error .AccountAlreadyInitialized)
    ∧ (a.owner ≠ systemProgramID →
        validate_account .uninitialized a = .error .InvalidAccountOwner
        ∧ validate_account .uninitializedWritable a
            = .error .InvalidAccountOwner) := by
  obtain ⟨k, o, l, sg, w, d⟩ := a
  by_cases ho : o = systemProgramID <;> simp_all [validate_account]

/-- C3 witness: the amended statement at a concrete account. -/
theorem claim3_nonzero_balance_always_fails_instance :
    validate_account .uninitialized
      { key := 3, owner := systemProgramID, lamports := 5,
        is_signer := false, is_writable := true, data := [] }
      = .error .AccountAlreadyInitialized := by
  exact ((claim3_nonzero_balance_always_fails _ (by decide)).2.2.1 rfl).1

/-- C8: PDA derivation is a pure deterministic function of
(seeds, bump, program identity), and `assert_pda` passes exactly when
the supplied account's key equals the derived address, failing with the
caller-chosen error otherwise. -/
theorem claim8_pda_derive_and_assert (s1 s2 : List (List Nat))
    (b1 b2 : Nat) (p1 p2 : Pubkey) (account : AccountInfo)
    (seeds : List (List Nat)) (bump : Nat) (err : ProgramError) :
    (s1 = s2 → b1 = b2 → p1 = p2 →
      derive_address s1 b1 p1 = derive_address s2 b2 p2)
    ∧ (assert_pda account seeds bump err = .ok ()
        ↔ account.key = derive_address seeds bump crateID)
    ∧ (account.key ≠ derive_address seeds bump crateID →
        assert_pda account seeds bump err = .error err) := by
  refine ⟨fun hs hb hp => by rw [hs, hb, hp], ?_, ?_⟩ <;>
    · simp only [assert_pda]
      split <;> simp_all

/-- C8 witness: assertion at a concrete account and seed set. -/
theorem claim8_pda_derive_and_assert_instance :
    derive_address [[1, 2]] 7 crateID = derive_address [[1, 2]] 7 crateID
    ∧ assert_pda
        { key := 99, owner := 0, lamports := 0,
          is_signer := false, is_writable := false, data := [] }
        [[1, 2]] 7 (.Custom 6003) = .error (.Custom 6003) := by
  refine ⟨(claim8_pda_derive_and_assert [[1, 2]] [[1, 2]] 7 7 crateID crateID
      { key := 0, owner := 0, lamports := 0, is_signer := false,
        is_writable := false, data := [] } [] 0 .InvalidAccountData).1
      rfl rfl rfl, ?_⟩
  exact (claim8_pda_derive_and_assert [] [] 0 0 0 0
      { key := 99, owner := 0, lamports := 0,
        is_signer := false, is_writable := false, data := [] }
      [[1, 2]] 7 (.Custom 6003)).2.2 (by decide)

/-- C9: a successful `close_account!` moves the account's entire prior
balance onto the receiver, leaves the account's balance zero, writes the
tombstone byte 0xff at the start of the storage when it was non-empty,
shrinks the storage to one byte, and hands ownership back to the default
owner. -/
theorem claim9_close_account_effects (account receiver : AccountInfo) :
    (close_account account receiver).2.lamports
        = receiver.lamports + account.lamports
    ∧ (close_account account receiver).1.lamports = 0
    ∧ (account.data ≠ [] →
        (close_account account receiver).1.data = [255])
    ∧ (close_account account receiver).1.data.length = 1
    ∧ (close_account account receiver).1.owner = systemProgramID := by
  obtain ⟨k, o, l, sg, w, d⟩ := account
  cases d <;> simp [close_account, closeInfo, resizeData, List.set]

/-- C9 witness: closing an account holding 1000 lamports into an empty
beneficiary yields balances 1000 / 0, a one-byte tombstoned storage and
default ownership. -/
theorem claim9_close_account_effects_instance :
    (close_account
        { key := 1, owner := crateID, lamports := 1000,
          is_signer := false, is_writable := true, data := [7, 7, 7] }
        { key := 2, owner := systemProgramID, lamports := 0,
          is_signer := false, is_writable := true, data := [] }).2.lamports = 1000
    ∧ (close_account
        { key := 1, owner := crateID, lamports := 1000,
          is_signer := false, is_writable := true, data := [7, 7, 7] }
        { key := 2, owner := systemProgramID, lamports := 0,
          is_signer := false, is_writable := true, data := [] }).1.lamports = 0
    ∧ (close_account
        { key := 1, owner := crateID, lamports := 1000,
          is_signer := false, is_writable := true, data := [7, 7, 7] }
        { key := 2, owner := systemProgramID, lamports := 0,
          is_signer := false, is_writable := true, data := [] }).1.data = [255] := by
  have h := claim9_close_account_effects
    { key := 1, owner := crateID, lamports := 1000,
      is_signer := false, is_writable := true, data := [7, 7, 7] }
    { key := 2, owner := systemProgramID, lamports := 0,
      is_signer := false, is_writable := true, data := [] }
  exact ⟨h.1, h.2.1, h.2.2.1 (by decide)⟩

end Jiminy
